import Mathlib

/-!
Shallow embedding of the scan orchestration engine of the missing-person
identification app.

Sources embedded here:
* `src/unnamed/part_004` — the `Scan` component: `captureFrame`, `triggerScan`,
  `stopScan`, `restartScan`, `runImageScan`, `runVideoScan`, `runWebcamScan`,
  `handleScanResult`.
* `src/unnamed/part_002` — `scanCrowdForBatch` (the Match Client wrapper that
  catches every transport/parse failure and synthesizes a negative verdict).

Modelling conventions:
* React `useState` cells and the `stopScanRef`/log/result refs become fields of
  an explicit `ScanState` record threaded through the functions.
* External effects are recorded as traces: each `scanCrowdForBatch` dispatch is
  appended to `ScanState.calls` (with the position, and the progress/result
  values observable at dispatch time), each `onUpdatePersonStatus(id,'FOUND')`
  callback to `ScanState.statusUpdates`, and each video seek target to
  `ScanState.positions`.
* The nondeterministic environment of a run (the user asynchronously setting
  the cancellation ref during an await, frame-capture success, and the Match
  Client response or failure for each sample) is an oracle `Nat → StepEnv`
  indexed by sample iteration.
* `while (currentTime < duration)` in `runVideoScan` advances `currentTime`
  from 0 in steps of 2, so it runs at most `(duration + 1) / 2` iterations
  over positions `t = 2 * i`; the loop is written as structural recursion on
  that remaining-iteration count, with the position recomputed as `2 * i`.
  The unbounded `while (true)` of `runWebcamScan` is observed through an
  explicit fuel bound: `RunEnd.running` means the loop is still going after
  the observed window.
* JS numbers are modelled as `Nat` (durations in whole seconds, confidences as
  integers); `Math.round((t / dur) * 100)` becomes `(200 * t + dur) / (2 * dur)`
  (round half up, exact for rationals). Wall-clock strings
  (`new Date().toLocaleTimeString()` timestamps) are elided from `MatchResult`.
* JS truthiness of `analysis.personId` (`null`, `undefined` and `""` are
  falsy) is modelled by `personIdTruthy` on `Option String`.
-/

namespace MissingPersonScan

/-- Person status, from `src/types.ts` / `src/unnamed/part_000`. -/
inductive Status where
  | MISSING
  | FOUND
  | SIGHTED
deriving DecidableEq, Repr

/-- Person record, from `src/unnamed/part_000` (`types.ts`). -/
structure Person where
  id : String
  name : String
  age : String
  lastSeenLocation : String
  lastSeenDate : String
  lastSeenClothing : String
  description : String
  imageUrl : String
  status : Status
deriving DecidableEq, Repr

/-- The structured Match Client verdict: the return shape of
`scanCrowdForBatch` in `src/unnamed/part_002`
(`found`, optional `personId`, `confidence` 0-100, `explanation`,
optional `box_2d` `[ymin, xmin, ymax, xmax]` on a 0-1000 scale). -/
structure Analysis where
  found : Bool
  personId : Option String
  confidence : Nat
  explanation : String
  box_2d : Option (Nat × Nat × Nat × Nat)
deriving DecidableEq, Repr

/-- Outcome of one attempted Gemini request inside `scanCrowdForBatch`:
either a parsed verdict, or one of the failure modes its `try/catch`
absorbs (network/transport rejection, empty `response.text`, or a
`JSON.parse` error). -/
inductive GeminiOutcome where
  | ok (a : Analysis)
  | transportError
  | emptyResponse
  | parseError
deriving DecidableEq, Repr

/-- True on every non-`ok` outcome. -/
def GeminiOutcome.isFailure : GeminiOutcome → Bool
  | .ok _ => false
  | _ => true

/-- The locally synthesized negative verdict returned by the `catch` block of
`scanCrowdForBatch` (`src/unnamed/part_002`, lines 128-135). -/
def failureVerdict : Analysis :=
  { found := false
    personId := none
    confidence := 0
    explanation := "Processing error or signal interruption."
    box_2d := none }

/-- The early-return verdict of `scanCrowdForBatch` for an empty roster
(`src/unnamed/part_002`, lines 47-50). -/
def emptyRosterVerdict : Analysis :=
  { found := false
    personId := none
    confidence := 0
    explanation := "No active missing person records to check against."
    box_2d := none }

/-- `scanCrowdForBatch` from `src/unnamed/part_002`: guards on an empty
roster, otherwise performs the external call; every failure is caught and
degraded to `failureVerdict`. The request body (prompt parts built from the
roster and the frame) does not influence the control flow modelled here, so
the frame argument is dropped and the response is the oracle `outcome`. -/
def scanCrowdForBatch (missingPeople : List Person) (outcome : GeminiOutcome) :
    Analysis :=
  if missingPeople.length == 0 then
    emptyRosterVerdict
  else
    match outcome with
    | .ok a => a
    | .transportError => failureVerdict
    | .emptyResponse => failureVerdict
    | .parseError => failureVerdict

/-- Stored result shape (`setResult` payloads in `src/unnamed/part_004`;
`MatchResult` of `src/unnamed/part_000` plus the `personId` field the
component stores). The wall-clock `timestamp` string is elided. -/
structure MatchResult where
  found : Bool
  personId : Option String
  confidence : Nat
  description : String
  locationContext : Option String
  boundingBox : Option (Nat × Nat × Nat × Nat)
deriving DecidableEq, Repr

/-- Trace entry for one `scanCrowdForBatch` dispatch: the timeline position
(`some t` for FILE_VIDEO samples, `none` for STATIC_IMAGE / LIVE_STREAM),
and the `scanProgress` / `result` state observable at dispatch time. -/
structure CallRec where
  pos : Option Nat
  progressAt : Nat
  resultAt : Option MatchResult
deriving DecidableEq, Repr

/-- The mutable state of the `Scan` component relevant to one scan run:
the `scanning`, `scanProgress`, `scanLog` (prepend-growing), `result` React
states, the `stopScanRef` cancellation flag, and the effect traces
(`statusUpdates` for `onUpdatePersonStatus` calls, `positions` for video
seeks, `calls` for Match Client dispatches). -/
structure ScanState where
  scanning : Bool
  scanProgress : Nat
  scanLog : List String
  result : Option MatchResult
  stopFlag : Bool
  statusUpdates : List String
  positions : List Nat
  calls : List CallRec
deriving DecidableEq, Repr

/-- Per-iteration environment: `userCancel` is true when the user clicked
STOP (setting `stopScanRef.current`) during the awaits preceding this
iteration boundary; `frameOk` is whether `captureFrame` returned a frame
(non-zero dimensions); `outcome` is the Match Client response for this
sample, consulted only when a frame was captured. -/
structure StepEnv where
  userCancel : Bool
  frameOk : Bool
  outcome : GeminiOutcome
deriving Repr

/-- Ghost observation of how a run ended (the control path taken):
`aborted` — precondition failure in `triggerScan`, no run started;
`cancelled` — a loop observed the stop flag and broke out;
`accepted i` — the verdict of sample `i` passed the acceptance gate and the
run returned early; `exhausted` — the FILE_VIDEO loop ran out of timeline;
`running` — the LIVE_STREAM loop is still going after the observed fuel
window; `imageDone` — the single-shot STATIC_IMAGE path finished. -/
inductive RunEnd where
  | aborted
  | cancelled
  | accepted (i : Nat)
  | exhausted
  | running
  | imageDone
deriving DecidableEq, Repr

/-- JS truthiness of the `analysis.personId` field: `null`/absent and the
empty string are falsy. -/
def personIdTruthy : Option String → Bool
  | none => false
  | some s => !(s == "")

/-- Two-digit zero padding, for mm:ss display strings. -/
def two (n : Nat) : String :=
  if n < 10 then "0" ++ toString n else toString n

/-- `new Date(t * 1000).toISOString().substr(14, 5)` — the "MM:SS" slice. -/
def fmtTime (t : Nat) : String :=
  two (t / 60 % 60) ++ ":" ++ two (t % 60)

/-- The acceptance gate applied by `runVideoScan` / `runWebcamScan`:
`analysis.found && analysis.confidence > 75`. -/
def accepts (a : Analysis) : Bool :=
  a.found && decide (75 < a.confidence)

/-- `handleScanResult` from `src/unnamed/part_004` (lines 268-292):
on `analysis.found && analysis.personId` (JS truthiness) store the full
positive result, request the FOUND status change for that id, and log the
confirmation (name looked up in `missingPeople`, `'Unknown'` when the lookup
misses or the name is falsy); otherwise store the fixed negative result and
log `"Negative result."`. -/
def handleScanResult (missingPeople : List Person) (analysis : Analysis)
    (timestampCtx : String) (s : ScanState) : ScanState :=
  if analysis.found && personIdTruthy analysis.personId then
    let pid := analysis.personId.getD ""
    let nm :=
      match missingPeople.find? (fun p => p.id == pid) with
      | some p => if p.name == "" then "Unknown" else p.name
      | none => "Unknown"
    { s with
      result := some
        { found := true
          personId := some pid
          confidence := analysis.confidence
          description := analysis.explanation
          locationContext := some timestampCtx
          boundingBox := analysis.box_2d }
      statusUpdates := s.statusUpdates ++ [pid]
      scanLog :=
        ("MATCH CONFIRMED: " ++ nm ++ " (" ++ toString analysis.confidence
          ++ "%)") :: s.scanLog }
  else
    { s with
      result := some
        { found := false
          personId := none
          confidence := 0
          description := "No match found"
          locationContext := none
          boundingBox := none }
      scanLog := "Negative result." :: s.scanLog }

/-- Log line for one video sample
(`Scanning Frame mm:ss against N records...`). -/
def frameLog (t : Nat) (n : Nat) : String :=
  "Scanning Frame " ++ fmtTime t ++ " against " ++ toString n ++ " records..."

/-- Log line for one live cycle (`Live Cycle c: Checking N targets...`). -/
def cycleLog (c : Nat) (n : Nat) : String :=
  "Live Cycle " ++ toString c ++ ": Checking " ++ toString n ++ " targets..."

/-- The `while (currentTime < duration)` loop of `runVideoScan`
(`src/unnamed/part_004`, lines 187-236). `n` is the number of remaining
iterations (`currentTime = 2 * i` and the guard `currentTime < duration`
holds exactly for the first `(duration + 1) / 2` values of `i`); `i` is the
sample index. Each iteration: observe the stop flag (break to CANCELLED if
set), seek to `t = 2 * i` (recorded in `positions`), attempt capture; on a
captured frame log, dispatch `scanCrowdForBatch` and, if the verdict passes
the `found && confidence > 75` gate, run `handleScanResult`, clear
`scanning` and return early; otherwise update
`scanProgress := min (round (t / dur * 100)) 99` and continue. After natural
exhaustion: clear `scanning` and, unless the stop flag was set meanwhile,
set progress to 100 and log completion. -/
def videoLoop (people : List Person) (dur : Nat) (env : Nat → StepEnv) :
    Nat → Nat → ScanState → ScanState × RunEnd
  | 0, i, s =>
    let flag := s.stopFlag || (env i).userCancel
    let s1 := { s with stopFlag := flag, scanning := false }
    if flag then (s1, .exhausted)
    else
      ({ s1 with
          scanProgress := 100
          scanLog := "Scan complete. No matches found in footage." :: s1.scanLog },
        .exhausted)
  | n + 1, i, s =>
    let flag := s.stopFlag || (env i).userCancel
    if flag then
      ({ s with stopFlag := flag, scanning := false }, .cancelled)
    else
      let t := 2 * i
      let e := env i
      let s1 := { s with stopFlag := flag, positions := s.positions ++ [t] }
      if e.frameOk then
        let s2 := { s1 with scanLog := frameLog t people.length :: s1.scanLog }
        let a := scanCrowdForBatch people e.outcome
        let s3 :=
          { s2 with
            calls := s2.calls ++ [⟨some t, s2.scanProgress, s2.result⟩] }
        if accepts a then
          ({ handleScanResult people a (fmtTime t) s3 with scanning := false },
            .accepted i)
        else
          let s4 :=
            { s3 with scanProgress := min ((200 * t + dur) / (2 * dur)) 99 }
          videoLoop people dur env n (i + 1) s4
      else
        let s4 :=
          { s1 with scanProgress := min ((200 * t + dur) / (2 * dur)) 99 }
        videoLoop people dur env n (i + 1) s4

/-- `runVideoScan` (`src/unnamed/part_004`, lines 178-236): the effective
duration is `video.duration || 100` (fallback when the metadata reports 0 /
NaN), then the sampling loop from position 0. -/
def runVideoScan (people : List Person) (dur : Nat) (env : Nat → StepEnv)
    (s : ScanState) : ScanState × RunEnd :=
  let duration := if dur == 0 then 100 else dur
  videoLoop people duration env ((duration + 1) / 2) 0 s

/-- The `while (true)` loop of `runWebcamScan`
(`src/unnamed/part_004`, lines 238-266), observed up to `fuel` iterations.
`c` is `scanCount`, `i` the sample index (they coincide on a fresh run).
Each cycle: observe the stop flag (break to CANCELLED), attempt capture; on
a captured frame log, dispatch `scanCrowdForBatch` and return early through
`handleScanResult` when the `found && confidence > 75` gate passes;
otherwise increment `scanCount`, set
`scanProgress := (scanCount % 10) * 10`, wait 2s and repeat. -/
def webcamLoop (people : List Person) (env : Nat → StepEnv) :
    Nat → Nat → Nat → ScanState → ScanState × RunEnd
  | 0, _, _, s => (s, .running)
  | fuel + 1, c, i, s =>
    let flag := s.stopFlag || (env i).userCancel
    if flag then
      ({ s with stopFlag := flag, scanning := false }, .cancelled)
    else
      let e := env i
      let s1 := { s with stopFlag := flag }
      if e.frameOk then
        let s2 := { s1 with scanLog := cycleLog c people.length :: s1.scanLog }
        let a := scanCrowdForBatch people e.outcome
        let s3 :=
          { s2 with
            calls := s2.calls ++ [⟨none, s2.scanProgress, s2.result⟩] }
        if accepts a then
          ({ handleScanResult people a "LIVE FEED" s3 with scanning := false },
            .accepted i)
        else
          let s4 := { s3 with scanProgress := ((c + 1) % 10) * 10 }
          webcamLoop people env fuel (c + 1) (i + 1) s4
      else
        let s4 := { s1 with scanProgress := ((c + 1) % 10) * 10 }
        webcamLoop people env fuel (c + 1) (i + 1) s4

/-- `runImageScan` (`src/unnamed/part_004`, lines 153-176): log, capture one
frame; on capture failure log the error and stop; otherwise dispatch
`scanCrowdForBatch` once, hand the verdict to `handleScanResult`
(the `catch` around the call is unreachable since `scanCrowdForBatch` never
throws), set progress to 100 and clear `scanning`. -/
def runImageScan (people : List Person) (e : StepEnv) (s : ScanState) :
    ScanState × RunEnd :=
  let s1 :=
    { s with scanLog := "Analyzing static image against database..." :: s.scanLog }
  if e.frameOk then
    let a := scanCrowdForBatch people e.outcome
    let s2 := { s1 with calls := s1.calls ++ [⟨none, s1.scanProgress, s1.result⟩] }
    let s3 := handleScanResult people a "Static Image" s2
    ({ s3 with scanProgress := 100, scanning := false }, .imageDone)
  else
    ({ s1 with scanLog := "Error: Capture failed." :: s1.scanLog, scanning := false },
      .imageDone)

/-- Media source kinds of the `Scan` component (`mediaType`). -/
inductive MediaType where
  | image
  | video
  | stream
deriving DecidableEq, Repr

/-- The `AUTO-START` log line of `triggerScan` for each media kind. -/
def autoStartLog (mt : MediaType) (n : Nat) : String :=
  match mt with
  | .stream => "AUTO-START: Live Batch Scan for " ++ toString n ++ " active targets..."
  | .video => "AUTO-START: Video Batch Scan for " ++ toString n ++ " active targets..."
  | .image => "AUTO-START: Image Batch Scan for " ++ toString n ++ " active targets..."

/-- `triggerScan` (`src/unnamed/part_004`, lines 115-138): abort with a log
entry when the MISSING roster is empty; return unchanged when the media
source is not ready (`streamRef` / `mediaUrl` missing, modelled by
`mediaReady`); otherwise set `scanning`, clear the stop flag and the stored
result, log the AUTO-START line and run the path for the media kind.
`dur` is the video duration, `fuel` the observation window for the live
loop, `env` the per-sample environment oracle. -/
def triggerScan (people : List Person) (mt : MediaType) (mediaReady : Bool)
    (dur fuel : Nat) (env : Nat → StepEnv) (s : ScanState) :
    ScanState × RunEnd :=
  let missingPeople := people.filter (fun p => p.status == Status.MISSING)
  if missingPeople.length == 0 then
    ({ s with
        scanLog :=
          "ABORT: Database empty. Add missing persons to directory first."
            :: s.scanLog },
      .aborted)
  else if !mediaReady then
    (s, .aborted)
  else
    let s1 := { s with scanning := true, stopFlag := false, result := none }
    let s2 := { s1 with scanLog := autoStartLog mt missingPeople.length :: s1.scanLog }
    match mt with
    | .stream => webcamLoop missingPeople env fuel 0 0 s2
    | .video => runVideoScan missingPeople dur env s2
    | .image => runImageScan missingPeople (env 0) s2

/-- `stopScan` (`src/unnamed/part_004`, lines 140-144): set the cancellation
flag, clear `scanning` and log the termination. -/
def stopScan (s : ScanState) : ScanState :=
  { s with
    stopFlag := true
    scanning := false
    scanLog := "Scan terminated by user." :: s.scanLog }

/-- `restartScan` (`src/unnamed/part_004`, lines 146-149): clear the
cancellation flag, then `triggerScan`. -/
def restartScan (people : List Person) (mt : MediaType) (mediaReady : Bool)
    (dur fuel : Nat) (env : Nat → StepEnv) (s : ScanState) :
    ScanState × RunEnd :=
  triggerScan people mt mediaReady dur fuel env { s with stopFlag := false }

/-- A sample step passes the run-terminating check iff a frame was captured
and the `scanCrowdForBatch` verdict passes the acceptance gate. -/
def stepAccepts (people : List Person) (e : StepEnv) : Bool :=
  e.frameOk && accepts (scanCrowdForBatch people e.outcome)

/-! ### Helper lemmas -/

lemma handleScanResult_calls (people : List Person) (a : Analysis)
    (ctx : String) (s : ScanState) :
    (handleScanResult people a ctx s).calls = s.calls := by
  unfold handleScanResult
  split <;> rfl

lemma handleScanResult_positions (people : List Person) (a : Analysis)
    (ctx : String) (s : ScanState) :
    (handleScanResult people a ctx s).positions = s.positions := by
  unfold handleScanResult
  split <;> rfl

lemma handleScanResult_result_isSome (people : List Person) (a : Analysis)
    (ctx : String) (s : ScanState) :
    ∃ mr, (handleScanResult people a ctx s).result = some mr := by
  unfold handleScanResult
  split <;> exact ⟨_, rfl⟩

lemma rangeMap_succ (i m : Nat) :
    (List.range (m + 1)).map (fun k => 2 * (i + k))
      = 2 * i :: (List.range m).map (fun k => 2 * (i + 1 + k)) := by
  rw [List.range_succ_eq_map]
  simp only [List.map_cons, List.map_map, Nat.add_zero]
  congr 1
  apply List.map_congr_left
  intro a _
  simp only [Function.comp_apply, Nat.succ_eq_add_one]
  omega

/-- One video iteration that observes the stop flag breaks out as CANCELLED. -/
lemma videoLoop_step_cancel (people : List Person) (dur : Nat)
    (env : Nat → StepEnv) (n i : Nat) (s : ScanState)
    (hflag : (s.stopFlag || (env i).userCancel) = true) :
    videoLoop people dur env (n + 1) i s
      = ({ s with stopFlag := true, scanning := false }, RunEnd.cancelled) := by
  simp only [videoLoop, hflag]
  simp

/-- One video iteration with a captured frame and an accepted verdict runs
`handleScanResult`, clears `scanning` and returns. -/
lemma videoLoop_step_accept (people : List Person) (dur : Nat)
    (env : Nat → StepEnv) (n i : Nat) (s : ScanState)
    (hflag : (s.stopFlag || (env i).userCancel) = false)
    (hf : (env i).frameOk = true)
    (ha : accepts (scanCrowdForBatch people (env i).outcome) = true) :
    videoLoop people dur env (n + 1) i s
      = ({ handleScanResult people (scanCrowdForBatch people (env i).outcome)
            (fmtTime (2 * i))
            { s with
              stopFlag := false
              positions := s.positions ++ [2 * i]
              scanLog := frameLog (2 * i) people.length :: s.scanLog
              calls := s.calls ++ [⟨some (2 * i), s.scanProgress, s.result⟩] }
          with scanning := false },
        RunEnd.accepted i) := by
  simp only [videoLoop, hflag, hf, ha]
  simp

/-- One video iteration with a captured frame and a rejected verdict logs,
dispatches, updates progress and proceeds to the next sample. -/
lemma videoLoop_step_next (people : List Person) (dur : Nat)
    (env : Nat → StepEnv) (n i : Nat) (s : ScanState)
    (hflag : (s.stopFlag || (env i).userCancel) = false)
    (hf : (env i).frameOk = true)
    (ha : accepts (scanCrowdForBatch people (env i).outcome) = false) :
    videoLoop people dur env (n + 1) i s
      = videoLoop people dur env n (i + 1)
          { s with
            stopFlag := false
            positions := s.positions ++ [2 * i]
            scanLog := frameLog (2 * i) people.length :: s.scanLog
            calls := s.calls ++ [⟨some (2 * i), s.scanProgress, s.result⟩]
            scanProgress := min ((200 * (2 * i) + dur) / (2 * dur)) 99 } := by
  simp only [videoLoop, hflag, hf, ha]
  simp

/-- One video iteration whose frame capture fails skips the Match Client
call, updates progress and proceeds to the next sample. -/
lemma videoLoop_step_nocap (people : List Person) (dur : Nat)
    (env : Nat → StepEnv) (n i : Nat) (s : ScanState)
    (hflag : (s.stopFlag || (env i).userCancel) = false)
    (hf : (env i).frameOk = false) :
    videoLoop people dur env (n + 1) i s
      = videoLoop people dur env n (i + 1)
          { s with
            stopFlag := false
            positions := s.positions ++ [2 * i]
            scanProgress := min ((200 * (2 * i) + dur) / (2 * dur)) 99 } := by
  simp only [videoLoop, hflag, hf]
  simp

/-- The video loop on an exhausted timeline with a clear stop flag sets
progress to 100 and logs completion. -/
lemma videoLoop_base (people : List Person) (dur : Nat) (env : Nat → StepEnv)
    (i : Nat) (s : ScanState)
    (hflag : (s.stopFlag || (env i).userCancel) = false) :
    videoLoop people dur env 0 i s
      = ({ s with
            stopFlag := false
            scanning := false
            scanProgress := 100
            scanLog := "Scan complete. No matches found in footage." :: s.scanLog },
        RunEnd.exhausted) := by
  simp only [videoLoop, hflag]
  simp

/-- One live cycle that observes the stop flag breaks out as CANCELLED. -/
lemma webcamLoop_step_cancel (people : List Person) (env : Nat → StepEnv)
    (fuel c i : Nat) (s : ScanState)
    (hflag : (s.stopFlag || (env i).userCancel) = true) :
    webcamLoop people env (fuel + 1) c i s
      = ({ s with stopFlag := true, scanning := false }, RunEnd.cancelled) := by
  simp only [webcamLoop, hflag]
  simp

/-- One live cycle with a captured frame and an accepted verdict runs
`handleScanResult`, clears `scanning` and returns. -/
lemma webcamLoop_step_accept (people : List Person) (env : Nat → StepEnv)
    (fuel c i : Nat) (s : ScanState)
    (hflag : (s.stopFlag || (env i).userCancel) = false)
    (hf : (env i).frameOk = true)
    (ha : accepts (scanCrowdForBatch people (env i).outcome) = true) :
    webcamLoop people env (fuel + 1) c i s
      = ({ handleScanResult people (scanCrowdForBatch people (env i).outcome)
            "LIVE FEED"
            { s with
              stopFlag := false
              scanLog := cycleLog c people.length :: s.scanLog
              calls := s.calls ++ [⟨none, s.scanProgress, s.result⟩] }
          with scanning := false },
        RunEnd.accepted i) := by
  simp only [webcamLoop, hflag, hf, ha]
  simp

/-- One live cycle with a captured frame and a rejected verdict logs,
dispatches, advances `scanCount`, cycles the progress indicator and
proceeds to the next cycle. -/
lemma webcamLoop_step_next (people : List Person) (env : Nat → StepEnv)
    (fuel c i : Nat) (s : ScanState)
    (hflag : (s.stopFlag || (env i).userCancel) = false)
    (hf : (env i).frameOk = true)
    (ha : accepts (scanCrowdForBatch people (env i).outcome) = false) :
    webcamLoop people env (fuel + 1) c i s
      = webcamLoop people env fuel (c + 1) (i + 1)
          { s with
            stopFlag := false
            scanLog := cycleLog c people.length :: s.scanLog
            calls := s.calls ++ [⟨none, s.scanProgress, s.result⟩]
            scanProgress := ((c + 1) % 10) * 10 } := by
  simp only [webcamLoop, hflag, hf, ha]
  simp

/-- One live cycle whose frame capture fails still advances `scanCount` and
the progress indicator, without a Match Client dispatch. -/
lemma webcamLoop_step_nocap (people : List Person) (env : Nat → StepEnv)
    (fuel c i : Nat) (s : ScanState)
    (hflag : (s.stopFlag || (env i).userCancel) = false)
    (hf : (env i).frameOk = false) :
    webcamLoop people env (fuel + 1) c i s
      = webcamLoop people env fuel (c + 1) (i + 1)
          { s with
            stopFlag := false
            scanProgress := ((c + 1) % 10) * 10 } := by
  simp only [webcamLoop, hflag, hf]
  simp

/-- The video loop never reports an acceptance at a sample index below its
starting index. -/
lemma videoLoop_accepted_ge (people : List Person) (dur : Nat)
    (env : Nat → StepEnv) :
    ∀ n i s j, (videoLoop people dur env n i s).2 = RunEnd.accepted j →
      i ≤ j := by
  intro n
  induction n with
  | zero =>
    intro i s j h
    simp only [videoLoop] at h
    split at h <;> simp at h
  | succ n ih =>
    intro i s j h
    simp only [videoLoop] at h
    split at h
    · simp at h
    · split at h
      · split at h
        · simp at h
          omega
        · exact le_trans (Nat.le_succ i) (ih (i + 1) _ j h)
      · exact le_trans (Nat.le_succ i) (ih (i + 1) _ j h)

/-- The live loop never reports an acceptance at a sample index below its
starting index. -/
lemma webcamLoop_accepted_ge (people : List Person) (env : Nat → StepEnv) :
    ∀ fuel c i s j,
      (webcamLoop people env fuel c i s).2 = RunEnd.accepted j → i ≤ j := by
  intro fuel
  induction fuel with
  | zero =>
    intro c i s j h
    simp only [webcamLoop] at h
    simp at h
  | succ fuel ih =>
    intro c i s j h
    simp only [webcamLoop] at h
    split at h
    · simp at h
    · split at h
      · split at h
        · simp at h
          omega
        · exact le_trans (Nat.le_succ i) (ih (c + 1) (i + 1) _ j h)
      · exact le_trans (Nat.le_succ i) (ih (c + 1) (i + 1) _ j h)

/-- Master characterization of the video loop when the cancellation flag is
never set: the loop visits positions `2*i, 2*(i+1), ...` in order, and either
runs all `n` remaining iterations without an accepted verdict (exhaustion:
progress 100, stored result untouched, completion log entry) or returns at
the first accepted sample with a stored result. -/
lemma videoLoop_clean (people : List Person) (dur : Nat) (env : Nat → StepEnv)
    (hcancel : ∀ j, (env j).userCancel = false) :
    ∀ n i s, s.stopFlag = false →
      ∃ m, m ≤ n ∧
        (videoLoop people dur env n i s).1.positions
          = s.positions ++ (List.range m).map (fun k => 2 * (i + k)) ∧
        (videoLoop people dur env n i s).1.scanning = false ∧
        (videoLoop people dur env n i s).1.calls.length ≤ s.calls.length + m ∧
        (((videoLoop people dur env n i s).2 = RunEnd.exhausted ∧ m = n ∧
            (∀ k, k < n → stepAccepts people (env (i + k)) = false) ∧
            (videoLoop people dur env n i s).1.scanProgress = 100 ∧
            (videoLoop people dur env n i s).1.result = s.result ∧
            (∃ tl, (videoLoop people dur env n i s).1.scanLog
              = "Scan complete. No matches found in footage." :: tl))
          ∨ (∃ k, m = k + 1 ∧
              (videoLoop people dur env n i s).2 = RunEnd.accepted (i + k) ∧
              stepAccepts people (env (i + k)) = true ∧
              (∀ j, j < k → stepAccepts people (env (i + j)) = false) ∧
              (∃ mr, (videoLoop people dur env n i s).1.result = some mr))) := by
  intro n
  induction n with
  | zero =>
    intro i s hs
    have hflag : (s.stopFlag || (env i).userCancel) = false := by
      simp [hs, hcancel i]
    rw [videoLoop_base people dur env i s hflag]
    exact ⟨0, Nat.le_refl 0, by simp, rfl, by simp,
      Or.inl ⟨rfl, rfl, by omega, rfl, rfl, ⟨s.scanLog, rfl⟩⟩⟩
  | succ n ih =>
    intro i s hs
    have hflag : (s.stopFlag || (env i).userCancel) = false := by
      simp [hs, hcancel i]
    by_cases hf : (env i).frameOk = true
    · by_cases ha : accepts (scanCrowdForBatch people (env i).outcome) = true
      · -- the verdict of sample i is accepted
        rw [videoLoop_step_accept people dur env n i s hflag hf ha]
        refine ⟨1, by omega, ?_, rfl, ?_,
          Or.inr ⟨0, rfl, by simp, ?_, by omega, ?_⟩⟩
        · rw [handleScanResult_positions]
          simp [List.range_succ]
        · rw [handleScanResult_calls]
          simp
        · simp [stepAccepts, hf, ha]
        · exact handleScanResult_result_isSome people _ _ _
      · -- sample i rejected: one more iteration, then the tail loop
        rw [Bool.not_eq_true] at ha
        rw [videoLoop_step_next people dur env n i s hflag hf ha]
        have hna : stepAccepts people (env i) = false := by
          simp [stepAccepts, ha]
        obtain ⟨m, hm, hpos, hscan, hcalls, hrest⟩ :=
          ih (i + 1)
            { s with
              stopFlag := false
              positions := s.positions ++ [2 * i]
              scanLog := frameLog (2 * i) people.length :: s.scanLog
              calls := s.calls ++ [⟨some (2 * i), s.scanProgress, s.result⟩]
              scanProgress := min ((200 * (2 * i) + dur) / (2 * dur)) 99 }
            rfl
        refine ⟨m + 1, by omega, ?_, hscan, ?_, ?_⟩
        · rw [hpos]
          simp only [rangeMap_succ]
          simp
        · refine le_trans hcalls ?_
          show (s.calls ++ [(⟨some (2 * i), s.scanProgress, s.result⟩ : CallRec)]).length + m
            ≤ s.calls.length + (m + 1)
          simp
          omega
        · rcases hrest with ⟨he, hmn, hnone, hprog, hres, hlog⟩ | ⟨k, hk, hacc, hsa, hbefore, hmr⟩
          · refine Or.inl ⟨he, by omega, ?_, hprog, by rw [hres], hlog⟩
            intro k hk
            match k with
            | 0 => simpa using hna
            | k + 1 =>
              have h2 : i + (k + 1) = i + 1 + k := by omega
              rw [h2]
              exact hnone k (by omega)
          · refine Or.inr ⟨k + 1, by omega, ?_, ?_, ?_, hmr⟩
            · have h2 : i + (k + 1) = i + 1 + k := by omega
              rw [h2]
              exact hacc
            · have h2 : i + (k + 1) = i + 1 + k := by omega
              rw [h2]
              exact hsa
            · intro j hj
              match j with
              | 0 => simpa using hna
              | j + 1 =>
                have h2 : i + (j + 1) = i + 1 + j := by omega
                rw [h2]
                exact hbefore j (by omega)
    · -- capture failed at sample i: no dispatch, continue
      rw [Bool.not_eq_true] at hf
      rw [videoLoop_step_nocap people dur env n i s hflag hf]
      have hna : stepAccepts people (env i) = false := by
        simp [stepAccepts, hf]
      obtain ⟨m, hm, hpos, hscan, hcalls, hrest⟩ :=
        ih (i + 1)
          { s with
            stopFlag := false
            positions := s.positions ++ [2 * i]
            scanProgress := min ((200 * (2 * i) + dur) / (2 * dur)) 99 }
          rfl
      refine ⟨m + 1, by omega, ?_, hscan, ?_, ?_⟩
      · rw [hpos]
        simp only [rangeMap_succ]
        simp
      · refine le_trans hcalls ?_
        show s.calls.length + m ≤ s.calls.length + (m + 1)
        omega
      · rcases hrest with ⟨he, hmn, hnone, hprog, hres, hlog⟩ | ⟨k, hk, hacc, hsa, hbefore, hmr⟩
        · refine Or.inl ⟨he, by omega, ?_, hprog, by rw [hres], hlog⟩
          intro k hk
          match k with
          | 0 => simpa using hna
          | k + 1 =>
            have h2 : i + (k + 1) = i + 1 + k := by omega
            rw [h2]
            exact hnone k (by omega)
        · refine Or.inr ⟨k + 1, by omega, ?_, ?_, ?_, hmr⟩
          · have h2 : i + (k + 1) = i + 1 + k := by omega
            rw [h2]
            exact hacc
          · have h2 : i + (k + 1) = i + 1 + k := by omega
            rw [h2]
            exact hsa
          · intro j hj
            match j with
            | 0 => simpa using hna
            | j + 1 =>
              have h2 : i + (j + 1) = i + 1 + j := by omega
              rw [h2]
              exact hbefore j (by omega)

/-- The video loop only ever appends to the call trace. -/
lemma videoLoop_calls_mono (people : List Person) (dur : Nat)
    (env : Nat → StepEnv) :
    ∀ n i s, ∃ l, (videoLoop people dur env n i s).1.calls = s.calls ++ l := by
  intro n
  induction n with
  | zero =>
    intro i s
    simp only [videoLoop]
    split
    · exact ⟨[], by simp⟩
    · exact ⟨[], by simp⟩
  | succ n ih =>
    intro i s
    simp only [videoLoop]
    split
    · exact ⟨[], by simp⟩
    · split
      · split
        · exact ⟨_, by rw [handleScanResult_calls]⟩
        · obtain ⟨l, hl⟩ := ih (i + 1) _
          exact ⟨_, by rw [hl, List.append_assoc]⟩
      · obtain ⟨l, hl⟩ := ih (i + 1) _
        exact ⟨l, by rw [hl]⟩

/-- Characterization of the video loop when the user sets the cancellation
flag during the awaits before iteration `m` (with no earlier cancellation or
accepted verdict, and iteration `m` still inside the timeline): the loop
breaks out CANCELLED at iteration `m`, with `scanning` cleared, the stored
result untouched, at most `m` Match Client dispatches and exactly `m` seeks
performed. -/
lemma videoLoop_cancel (people : List Person) (dur : Nat)
    (env : Nat → StepEnv) :
    ∀ m n i s, s.stopFlag = false →
      (∀ k, k < m → (env (i + k)).userCancel = false
        ∧ stepAccepts people (env (i + k)) = false) →
      (env (i + m)).userCancel = true →
      m < n →
      (videoLoop people dur env n i s).2 = RunEnd.cancelled ∧
      (videoLoop people dur env n i s).1.scanning = false ∧
      (videoLoop people dur env n i s).1.result = s.result ∧
      (videoLoop people dur env n i s).1.calls.length ≤ s.calls.length + m ∧
      (videoLoop people dur env n i s).1.positions.length
        = s.positions.length + m := by
  intro m
  induction m with
  | zero =>
    intro n i s hs hbefore hm hn
    obtain ⟨n', rfl⟩ : ∃ n', n = n' + 1 := ⟨n - 1, by omega⟩
    have hflag : (s.stopFlag || (env i).userCancel) = true := by
      simp only [Nat.add_zero] at hm
      simp [hm]
    rw [videoLoop_step_cancel people dur env n' i s hflag]
    exact ⟨rfl, rfl, rfl, le_of_eq rfl, rfl⟩
  | succ m ih =>
    intro n i s hs hbefore hm hn
    obtain ⟨n', rfl⟩ : ∃ n', n = n' + 1 := ⟨n - 1, by omega⟩
    have hc0 : (env i).userCancel = false := by
      simpa using (hbefore 0 (by omega)).1
    have ha0 : stepAccepts people (env i) = false := by
      simpa using (hbefore 0 (by omega)).2
    have hflag : (s.stopFlag || (env i).userCancel) = false := by
      simp [hs, hc0]
    have hshift : ∀ k, k < m → (env (i + 1 + k)).userCancel = false
        ∧ stepAccepts people (env (i + 1 + k)) = false := by
      intro k hk
      have h2 : i + 1 + k = i + (k + 1) := by omega
      rw [h2]
      exact hbefore (k + 1) (by omega)
    have hm' : (env (i + 1 + m)).userCancel = true := by
      have h2 : i + 1 + m = i + (m + 1) := by omega
      rw [h2]
      exact hm
    by_cases hf : (env i).frameOk = true
    · have ha : accepts (scanCrowdForBatch people (env i).outcome) = false := by
        simp only [stepAccepts, hf, Bool.true_and] at ha0
        exact ha0
      rw [videoLoop_step_next people dur env n' i s hflag hf ha]
      obtain ⟨h1, h2, h3, h4, h5⟩ :=
        ih n' (i + 1)
          { s with
            stopFlag := false
            positions := s.positions ++ [2 * i]
            scanLog := frameLog (2 * i) people.length :: s.scanLog
            calls := s.calls ++ [⟨some (2 * i), s.scanProgress, s.result⟩]
            scanProgress := min ((200 * (2 * i) + dur) / (2 * dur)) 99 }
          rfl hshift hm' (by omega)
      refine ⟨h1, h2, h3, ?_, ?_⟩
      · refine le_trans h4 ?_
        show (s.calls ++ [(⟨some (2 * i), s.scanProgress, s.result⟩ : CallRec)]).length + m
          ≤ s.calls.length + (m + 1)
        simp
        omega
      · rw [h5]
        show (s.positions ++ [2 * i]).length + m = s.positions.length + (m + 1)
        simp
        omega
    · rw [Bool.not_eq_true] at hf
      rw [videoLoop_step_nocap people dur env n' i s hflag hf]
      obtain ⟨h1, h2, h3, h4, h5⟩ :=
        ih n' (i + 1)
          { s with
            stopFlag := false
            positions := s.positions ++ [2 * i]
            scanProgress := min ((200 * (2 * i) + dur) / (2 * dur)) 99 }
          rfl hshift hm' (by omega)
      refine ⟨h1, h2, h3, ?_, ?_⟩
      · refine le_trans h4 ?_
        show s.calls.length + m ≤ s.calls.length + (m + 1)
        omega
      · rw [h5]
        show (s.positions ++ [2 * i]).length + m = s.positions.length + (m + 1)
        simp
        omega

/-- Characterization of the live loop when the cancellation flag is never
set and no verdict is ever accepted: after any observed window the loop is
still running, with `scanning`, the stored result and the stop flag
untouched and the progress indicator cycling as
`((scanCount + fuel) % 10) * 10`. -/
lemma webcamLoop_clean (people : List Person) (env : Nat → StepEnv)
    (hcancel : ∀ j, (env j).userCancel = false)
    (hnoacc : ∀ j, stepAccepts people (env j) = false) :
    ∀ fuel c i s, s.stopFlag = false →
      (webcamLoop people env fuel c i s).2 = RunEnd.running ∧
      (webcamLoop people env fuel c i s).1.scanning = s.scanning ∧
      (webcamLoop people env fuel c i s).1.result = s.result ∧
      (webcamLoop people env fuel c i s).1.stopFlag = false ∧
      (webcamLoop people env fuel c i s).1.scanProgress
        = (if fuel = 0 then s.scanProgress else ((c + fuel) % 10) * 10) := by
  intro fuel
  induction fuel with
  | zero =>
    intro c i s hs
    simp [webcamLoop, hs]
  | succ fuel ih =>
    intro c i s hs
    have hflag : (s.stopFlag || (env i).userCancel) = false := by
      simp [hs, hcancel i]
    by_cases hf : (env i).frameOk = true
    · have ha : accepts (scanCrowdForBatch people (env i).outcome) = false := by
        have := hnoacc i
        simp only [stepAccepts, hf, Bool.true_and] at this
        exact this
      rw [webcamLoop_step_next people env fuel c i s hflag hf ha]
      obtain ⟨h1, h2, h3, h4, h5⟩ :=
        ih (c + 1) (i + 1)
          { s with
            stopFlag := false
            scanLog := cycleLog c people.length :: s.scanLog
            calls := s.calls ++ [⟨none, s.scanProgress, s.result⟩]
            scanProgress := ((c + 1) % 10) * 10 }
          rfl
      refine ⟨h1, h2, h3, h4, ?_⟩
      · rw [h5]
        by_cases hfu : fuel = 0
        · subst hfu
          simp
        · simp only [hfu, if_false, Nat.succ_ne_zero]
          have h2 : c + 1 + fuel = c + (fuel + 1) := by omega
          rw [h2]
    · rw [Bool.not_eq_true] at hf
      rw [webcamLoop_step_nocap people env fuel c i s hflag hf]
      obtain ⟨h1, h2, h3, h4, h5⟩ :=
        ih (c + 1) (i + 1)
          { s with
            stopFlag := false
            scanProgress := ((c + 1) % 10) * 10 }
          rfl
      refine ⟨h1, h2, h3, h4, ?_⟩
      · rw [h5]
        by_cases hfu : fuel = 0
        · subst hfu
          simp
        · simp only [hfu, if_false, Nat.succ_ne_zero]
          have h2 : c + 1 + fuel = c + (fuel + 1) := by omega
          rw [h2]

/-- Characterization of the live loop when the user sets the cancellation
flag during the awaits before cycle `m` (with no earlier cancellation or
accepted verdict, `m` within the observed window): the loop breaks out
CANCELLED, with `scanning` cleared, the stored result untouched and at most
`m` Match Client dispatches. -/
lemma webcamLoop_cancel (people : List Person) (env : Nat → StepEnv) :
    ∀ m fuel c i s, s.stopFlag = false →
      (∀ k, k < m → (env (i + k)).userCancel = false
        ∧ stepAccepts people (env (i + k)) = false) →
      (env (i + m)).userCancel = true →
      m < fuel →
      (webcamLoop people env fuel c i s).2 = RunEnd.cancelled ∧
      (webcamLoop people env fuel c i s).1.scanning = false ∧
      (webcamLoop people env fuel c i s).1.result = s.result ∧
      (webcamLoop people env fuel c i s).1.calls.length
        ≤ s.calls.length + m := by
  intro m
  induction m with
  | zero =>
    intro fuel c i s hs hbefore hm hn
    obtain ⟨fuel', rfl⟩ : ∃ f, fuel = f + 1 := ⟨fuel - 1, by omega⟩
    have hflag : (s.stopFlag || (env i).userCancel) = true := by
      simp only [Nat.add_zero] at hm
      simp [hm]
    rw [webcamLoop_step_cancel people env fuel' c i s hflag]
    exact ⟨rfl, rfl, rfl, le_of_eq rfl⟩
  | succ m ih =>
    intro fuel c i s hs hbefore hm hn
    obtain ⟨fuel', rfl⟩ : ∃ f, fuel = f + 1 := ⟨fuel - 1, by omega⟩
    have hc0 : (env i).userCancel = false := by
      simpa using (hbefore 0 (by omega)).1
    have ha0 : stepAccepts people (env i) = false := by
      simpa using (hbefore 0 (by omega)).2
    have hflag : (s.stopFlag || (env i).userCancel) = false := by
      simp [hs, hc0]
    have hshift : ∀ k, k < m → (env (i + 1 + k)).userCancel = false
        ∧ stepAccepts people (env (i + 1 + k)) = false := by
      intro k hk
      have h2 : i + 1 + k = i + (k + 1) := by omega
      rw [h2]
      exact hbefore (k + 1) (by omega)
    have hm' : (env (i + 1 + m)).userCancel = true := by
      have h2 : i + 1 + m = i + (m + 1) := by omega
      rw [h2]
      exact hm
    by_cases hf : (env i).frameOk = true
    · have ha : accepts (scanCrowdForBatch people (env i).outcome) = false := by
        simp only [stepAccepts, hf, Bool.true_and] at ha0
        exact ha0
      rw [webcamLoop_step_next people env fuel' c i s hflag hf ha]
      obtain ⟨h1, h2, h3, h4⟩ :=
        ih fuel' (c + 1) (i + 1)
          { s with
            stopFlag := false
            scanLog := cycleLog c people.length :: s.scanLog
            calls := s.calls ++ [⟨none, s.scanProgress, s.result⟩]
            scanProgress := ((c + 1) % 10) * 10 }
          rfl hshift hm' (by omega)
      refine ⟨h1, h2, h3, ?_⟩
      refine le_trans h4 ?_
      show (s.calls ++ [(⟨none, s.scanProgress, s.result⟩ : CallRec)]).length + m
        ≤ s.calls.length + (m + 1)
      simp
      omega
    · rw [Bool.not_eq_true] at hf
      rw [webcamLoop_step_nocap people env fuel' c i s hflag hf]
      obtain ⟨h1, h2, h3, h4⟩ :=
        ih fuel' (c + 1) (i + 1)
          { s with
            stopFlag := false
            scanProgress := ((c + 1) % 10) * 10 }
          rfl hshift hm' (by omega)
      refine ⟨h1, h2, h3, ?_⟩
      refine le_trans h4 ?_
      show s.calls.length + m ≤ s.calls.length + (m + 1)
      omega

/-- If the live loop ends CANCELLED starting from a clear stop flag, the
user set the cancellation flag before some cycle in the observed window. -/
lemma webcamLoop_cancelled_of (people : List Person) (env : Nat → StepEnv) :
    ∀ fuel c i s, s.stopFlag = false →
      (webcamLoop people env fuel c i s).2 = RunEnd.cancelled →
      ∃ j, i ≤ j ∧ j < i + fuel ∧ (env j).userCancel = true := by
  intro fuel
  induction fuel with
  | zero =>
    intro c i s hs h
    simp only [webcamLoop] at h
    simp at h
  | succ fuel ih =>
    intro c i s hs h
    by_cases hc : (env i).userCancel = true
    · exact ⟨i, le_refl i, by omega, hc⟩
    · rw [Bool.not_eq_true] at hc
      have hflag : (s.stopFlag || (env i).userCancel) = false := by
        simp [hs, hc]
      by_cases hf : (env i).frameOk = true
      · by_cases ha : accepts (scanCrowdForBatch people (env i).outcome) = true
        · rw [webcamLoop_step_accept people env fuel c i s hflag hf ha] at h
          simp at h
        · rw [Bool.not_eq_true] at ha
          rw [webcamLoop_step_next people env fuel c i s hflag hf ha] at h
          obtain ⟨j, hj1, hj2, hj3⟩ := ih (c + 1) (i + 1) _ rfl h
          exact ⟨j, by omega, by omega, hj3⟩
      · rw [Bool.not_eq_true] at hf
        rw [webcamLoop_step_nocap people env fuel c i s hflag hf] at h
        obtain ⟨j, hj1, hj2, hj3⟩ := ih (c + 1) (i + 1) _ rfl h
        exact ⟨j, by omega, by omega, hj3⟩

/-! ### Concrete fixtures used by witnesses and counterexamples -/

/-- A person record with status MISSING. -/
def pA : Person :=
  { id := "A"
    name := "Alice"
    age := "30"
    lastSeenLocation := "Central Station"
    lastSeenDate := "2024-05-12"
    lastSeenClothing := "red coat"
    description := "tall, dark hair"
    imageUrl := "imgA"
    status := Status.MISSING }

/-- A fresh component state, as after `handleFileSelect` / `enableWebcam`. -/
def s0 : ScanState :=
  { scanning := false
    scanProgress := 0
    scanLog := []
    result := none
    stopFlag := false
    statusUpdates := []
    positions := []
    calls := [] }

/-- A below-threshold not-found verdict. -/
def vMiss : Analysis :=
  { found := false
    personId := none
    confidence := 10
    explanation := "no match"
    box_2d := none }

/-- A confident found verdict that carries no `personId`. -/
def vNullId : Analysis :=
  { found := true
    personId := none
    confidence := 90
    explanation := "someone seen"
    box_2d := none }

/-- A confident found verdict for record `"A"`. -/
def vHit : Analysis :=
  { found := true
    personId := some "A"
    confidence := 90
    explanation := "match in crowd"
    box_2d := some (100, 100, 200, 200) }

/-- A found verdict at exactly the threshold confidence 75. -/
def vEdge : Analysis :=
  { found := true
    personId := some "A"
    confidence := 75
    explanation := "borderline"
    box_2d := none }

/-- Environment: every sample captures and the verdict is `vMiss`. -/
def envMiss : Nat → StepEnv := fun _ => ⟨false, true, .ok vMiss⟩

/-- Environment: every sample captures and the verdict is `vNullId`. -/
def envNullId : Nat → StepEnv := fun _ => ⟨false, true, .ok vNullId⟩

/-- Environment: every sample captures and the verdict is `vHit`. -/
def envHit : Nat → StepEnv := fun _ => ⟨false, true, .ok vHit⟩

/-! ### Claim theorems -/

/-- C4: with an empty roster (no Person Record with status MISSING), starting
a scan run for any media source kind only prepends the abort entry to the
log and changes nothing else: in particular the Match Client dispatch trace
is unchanged, so no external call is made. -/
theorem claim4_theorem (people : List Person) (mt : MediaType)
    (mediaReady : Bool) (dur fuel : Nat) (env : Nat → StepEnv) (s : ScanState)
    (h : ∀ p, p ∈ people → p.status ≠ Status.MISSING) :
    triggerScan people mt mediaReady dur fuel env s
      = ({ s with
            scanLog :=
              "ABORT: Database empty. Add missing persons to directory first."
                :: s.scanLog },
        RunEnd.aborted) ∧
    (triggerScan people mt mediaReady dur fuel env s).1.calls = s.calls := by
  have hfilter : people.filter (fun p => p.status == Status.MISSING) = [] := by
    apply List.filter_eq_nil_iff.mpr
    intro p hp
    simp [h p hp]
  have heq : triggerScan people mt mediaReady dur fuel env s
      = ({ s with
            scanLog :=
              "ABORT: Database empty. Add missing persons to directory first."
                :: s.scanLog },
        RunEnd.aborted) := by
    unfold triggerScan
    rw [hfilter]
    rfl
  exact ⟨heq, by rw [heq]⟩

/-- C4 witness: instantiation at an explicitly empty record list. -/
theorem claim4_witness :
    triggerScan [] MediaType.video true 6 0 envMiss s0
      = ({ s0 with
            scanLog :=
              "ABORT: Database empty. Add missing persons to directory first."
                :: s0.scanLog },
        RunEnd.aborted) ∧
    (triggerScan [] MediaType.video true 6 0 envMiss s0).1.calls = s0.calls :=
  claim4_theorem [] MediaType.video true 6 0 envMiss s0 (by intro p hp; cases hp)

/-- C5: every failing Match Client invocation (transport error, empty
response, or JSON parse error) returns the locally synthesized negative
verdict (`found = false`, `confidence = 0`, non-empty explanatory string)
instead of propagating the exception, and a FILE_VIDEO or LIVE_STREAM
iteration whose dispatch fails continues to its next sample instead of
aborting the run. -/
theorem claim5_theorem :
    (∀ (people : List Person) (o : GeminiOutcome),
       people ≠ [] → o.isFailure = true →
       scanCrowdForBatch people o = failureVerdict ∧
       (scanCrowdForBatch people o).found = false ∧
       (scanCrowdForBatch people o).confidence = 0 ∧
       (scanCrowdForBatch people o).explanation ≠ "") ∧
    (∀ (people : List Person) (dur : Nat) (env : Nat → StepEnv) (n i : Nat)
       (s : ScanState),
       s.stopFlag = false → (env i).userCancel = false →
       (env i).frameOk = true → ((env i).outcome).isFailure = true →
       videoLoop people dur env (n + 1) i s
         = videoLoop people dur env n (i + 1)
             { s with
               stopFlag := false
               positions := s.positions ++ [2 * i]
               scanLog := frameLog (2 * i) people.length :: s.scanLog
               calls := s.calls ++ [⟨some (2 * i), s.scanProgress, s.result⟩]
               scanProgress := min ((200 * (2 * i) + dur) / (2 * dur)) 99 }) ∧
    (∀ (people : List Person) (env : Nat → StepEnv) (fuel c i : Nat)
       (s : ScanState),
       s.stopFlag = false → (env i).userCancel = false →
       (env i).frameOk = true → ((env i).outcome).isFailure = true →
       webcamLoop people env (fuel + 1) c i s
         = webcamLoop people env fuel (c + 1) (i + 1)
             { s with
               stopFlag := false
               scanLog := cycleLog c people.length :: s.scanLog
               calls := s.calls ++ [⟨none, s.scanProgress, s.result⟩]
               scanProgress := ((c + 1) % 10) * 10 }) := by
  have hrej : ∀ (people : List Person) (o : GeminiOutcome), o.isFailure = true →
      accepts (scanCrowdForBatch people o) = false := by
    intro people o hfail
    cases o with
    | ok a => simp [GeminiOutcome.isFailure] at hfail
    | transportError =>
      unfold scanCrowdForBatch
      split <;> rfl
    | emptyResponse =>
      unfold scanCrowdForBatch
      split <;> rfl
    | parseError =>
      unfold scanCrowdForBatch
      split <;> rfl
  refine ⟨?_, ?_, ?_⟩
  · intro people o hne hfail
    have hlen : people.length ≠ 0 := fun h => hne (List.length_eq_zero.mp h)
    have h0 : (people.length == 0) = false := by simp [hlen]
    have heq : scanCrowdForBatch people o = failureVerdict := by
      cases o with
      | ok a => simp [GeminiOutcome.isFailure] at hfail
      | transportError => simp [scanCrowdForBatch, h0]
      | emptyResponse => simp [scanCrowdForBatch, h0]
      | parseError => simp [scanCrowdForBatch, h0]
    exact ⟨heq, by rw [heq]; rfl, by rw [heq]; rfl, by rw [heq]; decide⟩
  · intro people dur env n i s hs hc hf hfail
    exact videoLoop_step_next people dur env n i s (by simp [hs, hc]) hf
      (hrej people _ hfail)
  · intro people env fuel c i s hs hc hf hfail
    exact webcamLoop_step_next people env fuel c i s (by simp [hs, hc]) hf
      (hrej people _ hfail)

/-- C5 witness: a transport error against a one-record roster yields the
synthesized negative verdict. -/
theorem claim5_witness :
    scanCrowdForBatch [pA] GeminiOutcome.transportError = failureVerdict ∧
    (scanCrowdForBatch [pA] GeminiOutcome.transportError).found = false ∧
    (scanCrowdForBatch [pA] GeminiOutcome.transportError).confidence = 0 ∧
    (scanCrowdForBatch [pA] GeminiOutcome.transportError).explanation ≠ "" :=
  claim5_theorem.1 [pA] GeminiOutcome.transportError (by simp) rfl

/-- C6: a STATIC_IMAGE run started with a non-empty MISSING roster whose
single frame capture succeeds dispatches exactly one Match Client call,
sets progress to 100, stores a result and ends COMPLETED
(`scanning` cleared, single-shot path finished) whatever the verdict is:
the environment, and in particular the verdict, is universally
quantified and not gated on any confidence threshold. -/
theorem claim6_theorem (people : List Person) (dur fuel : Nat)
    (env : Nat → StepEnv) (s : ScanState)
    (hro : people.filter (fun p => p.status == Status.MISSING) ≠ [])
    (hcap : (env 0).frameOk = true) :
    (triggerScan people MediaType.image true dur fuel env s).1.calls.length
        = s.calls.length + 1 ∧
    (triggerScan people MediaType.image true dur fuel env s).1.scanProgress
        = 100 ∧
    (triggerScan people MediaType.image true dur fuel env s).1.scanning
        = false ∧
    (triggerScan people MediaType.image true dur fuel env s).2
        = RunEnd.imageDone ∧
    (∃ mr, (triggerScan people MediaType.image true dur fuel env s).1.result
        = some mr) := by
  have h0 : ((people.filter (fun p => p.status == Status.MISSING)).length == 0)
      = false := by
    simp [List.length_eq_zero, hro]
  have hrun : triggerScan people MediaType.image true dur fuel env s
      = runImageScan (people.filter (fun p => p.status == Status.MISSING))
          (env 0)
          { s with
            scanning := true
            stopFlag := false
            result := none
            scanLog :=
              autoStartLog MediaType.image
                  (people.filter (fun p => p.status == Status.MISSING)).length
                :: s.scanLog } := by
    simp only [triggerScan]
    rw [h0]
    rfl
  rw [hrun]
  unfold runImageScan
  rw [if_pos hcap]
  obtain ⟨mr, hmr⟩ := handleScanResult_result_isSome
    (people.filter (fun p => p.status == Status.MISSING))
    (scanCrowdForBatch (people.filter (fun p => p.status == Status.MISSING))
      (env 0).outcome)
    "Static Image" _
  refine ⟨?_, rfl, rfl, rfl, ⟨mr, ?_⟩⟩
  · rw [handleScanResult_calls]
    simp
  · exact hmr

/-- C6 witness: a one-record roster, a successful capture, and the
below-threshold verdict `vMiss` — the image run still dispatches once,
reaches progress 100 and completes. -/
theorem claim6_witness :
    (triggerScan [pA] MediaType.image true 0 0 envMiss s0).1.calls.length
        = s0.calls.length + 1 ∧
    (triggerScan [pA] MediaType.image true 0 0 envMiss s0).1.scanProgress
        = 100 ∧
    (triggerScan [pA] MediaType.image true 0 0 envMiss s0).1.scanning
        = false ∧
    (triggerScan [pA] MediaType.image true 0 0 envMiss s0).2
        = RunEnd.imageDone ∧
    (∃ mr, (triggerScan [pA] MediaType.image true 0 0 envMiss s0).1.result
        = some mr) :=
  claim6_theorem [pA] 0 0 envMiss s0 (by simp [pA]) rfl

/-- C10: handling a verdict with `found = true` but a null `personId` stores
the fixed negative result and requests no status change; conversely a FOUND
status request only ever happens for a verdict with `found = true` and a
present (non-empty) `personId`, and only for that identifier. -/
theorem claim10_theorem :
    (∀ (people : List Person) (a : Analysis) (ctx : String) (s : ScanState),
       a.found = true → a.personId = none →
       (handleScanResult people a ctx s).result
          = some
              { found := false
                personId := none
                confidence := 0
                description := "No match found"
                locationContext := none
                boundingBox := none } ∧
       (handleScanResult people a ctx s).statusUpdates = s.statusUpdates) ∧
    (∀ (people : List Person) (a : Analysis) (ctx : String) (s : ScanState),
       (handleScanResult people a ctx s).statusUpdates ≠ s.statusUpdates →
       a.found = true ∧ ∃ pid, a.personId = some pid ∧ pid ≠ "" ∧
         (handleScanResult people a ctx s).statusUpdates
           = s.statusUpdates ++ [pid]) := by
  constructor
  · intro people a ctx s hfound hnone
    have htr : personIdTruthy a.personId = false := by
      rw [hnone]
      rfl
    constructor
    · unfold handleScanResult
      rw [if_neg (by simp [htr])]
    · unfold handleScanResult
      rw [if_neg (by simp [htr])]
  · intro people a ctx s hne
    by_cases hcond : (a.found && personIdTruthy a.personId) = true
    · rw [Bool.and_eq_true] at hcond
      have hfound : a.found = true := hcond.1
      have htr : personIdTruthy a.personId = true := hcond.2
      cases hpid : a.personId with
      | none =>
        rw [hpid] at htr
        simp [personIdTruthy] at htr
      | some pid =>
        rw [hpid] at htr
        have hpne : pid ≠ "" := by
          simpa [personIdTruthy] using htr
        refine ⟨hfound, pid, rfl, hpne, ?_⟩
        unfold handleScanResult
        rw [if_pos (by rw [Bool.and_eq_true]; exact hcond)]
        simp [hpid]
    · exfalso
      apply hne
      unfold handleScanResult
      rw [if_neg hcond]

/-- C10 witness: the confident verdict `vNullId` with no `personId` stores
the negative result and requests no status change. -/
theorem claim10_witness :
    (handleScanResult [pA] vNullId "Static Image" s0).result
        = some
            { found := false
              personId := none
              confidence := 0
              description := "No match found"
              locationContext := none
              boundingBox := none } ∧
    (handleScanResult [pA] vNullId "Static Image" s0).statusUpdates
        = s0.statusUpdates :=
  claim10_theorem.1 [pA] vNullId "Static Image" s0 rfl rfl

/-- Positively handled acceptance updates the status trace with exactly the
matched identifier. -/
lemma handleScanResult_status_pos (people : List Person) (a : Analysis)
    (ctx : String) (s : ScanState)
    (hcond : (a.found && personIdTruthy a.personId) = true) :
    (handleScanResult people a ctx s).statusUpdates
      = s.statusUpdates ++ [a.personId.getD ""] := by
  unfold handleScanResult
  rw [if_pos hcond]

/-- A negatively handled verdict leaves the status trace unchanged. -/
lemma handleScanResult_status_neg (people : List Person) (a : Analysis)
    (ctx : String) (s : ScanState)
    (hcond : (a.found && personIdTruthy a.personId) = false) :
    (handleScanResult people a ctx s).statusUpdates = s.statusUpdates := by
  unfold handleScanResult
  rw [if_neg (by simp [hcond])]

/-- The acceptance gate in Bool form is the conjunction in Prop form. -/
lemma accepts_iff (a : Analysis) :
    accepts a = true ↔ (a.found = true ∧ 75 < a.confidence) := by
  simp [accepts]

/-- C1 (counterexample to the claim as stated): the roster is `[pA]` and
every sample verdict is `vNullId` (`found = true`, `confidence = 90`, but
`personId` null). The verdict passes the `found ∧ confidence > 75` gate and
the FILE_VIDEO run terminates at sample 0, yet no FOUND status request is
issued and the stored result is the negative one — contradicting the
claim's description of acceptance as "terminating the run with a stored
result and a FOUND status request". -/
theorem claim1_counterexample :
    (triggerScan [pA] MediaType.video true 10 0 envNullId s0).2
        = RunEnd.accepted 0 ∧
    vNullId.found = true ∧ 75 < vNullId.confidence ∧
    (triggerScan [pA] MediaType.video true 10 0 envNullId s0).1.statusUpdates
        = [] ∧
    ((triggerScan [pA] MediaType.video true 10 0 envNullId s0).1.result.map
        MatchResult.found) = some false := by
  decide

/-- C1 (amended): during a FILE_VIDEO or LIVE_STREAM run, the verdict of a
sample is accepted — the run terminates at that sample — iff `found = true`
and `confidence` strictly exceeds 75. On acceptance a result is always
stored and a FOUND status request is issued exactly when the verdict
carries a present (non-null, non-empty) `personId`. A verdict with
`found = true` and confidence exactly 75 is never accepted: both loops
continue to the next sample. -/
theorem claim1_theorem (people : List Person) (dur : Nat)
    (env : Nat → StepEnv) (n c i : Nat) (s : ScanState)
    (hs : s.stopFlag = false)
    (hc : (env i).userCancel = false)
    (hf : (env i).frameOk = true) :
    (((videoLoop people dur env (n + 1) i s).2 = RunEnd.accepted i)
       ↔ ((scanCrowdForBatch people (env i).outcome).found = true
            ∧ 75 < (scanCrowdForBatch people (env i).outcome).confidence)) ∧
    (((webcamLoop people env (n + 1) c i s).2 = RunEnd.accepted i)
       ↔ ((scanCrowdForBatch people (env i).outcome).found = true
            ∧ 75 < (scanCrowdForBatch people (env i).outcome).confidence)) ∧
    ((scanCrowdForBatch people (env i).outcome).found = true →
     75 < (scanCrowdForBatch people (env i).outcome).confidence →
       (∃ mr, (videoLoop people dur env (n + 1) i s).1.result = some mr) ∧
       (videoLoop people dur env (n + 1) i s).1.scanning = false ∧
       (personIdTruthy (scanCrowdForBatch people (env i).outcome).personId
            = true →
          (videoLoop people dur env (n + 1) i s).1.statusUpdates
            = s.statusUpdates
                ++ [(scanCrowdForBatch people (env i).outcome).personId.getD ""]) ∧
       (personIdTruthy (scanCrowdForBatch people (env i).outcome).personId
            = false →
          (videoLoop people dur env (n + 1) i s).1.statusUpdates
            = s.statusUpdates)) ∧
    ((scanCrowdForBatch people (env i).outcome).found = true →
     (scanCrowdForBatch people (env i).outcome).confidence = 75 →
       videoLoop people dur env (n + 1) i s
         = videoLoop people dur env n (i + 1)
             { s with
               stopFlag := false
               positions := s.positions ++ [2 * i]
               scanLog := frameLog (2 * i) people.length :: s.scanLog
               calls := s.calls ++ [⟨some (2 * i), s.scanProgress, s.result⟩]
               scanProgress := min ((200 * (2 * i) + dur) / (2 * dur)) 99 } ∧
       webcamLoop people env (n + 1) c i s
         = webcamLoop people env n (c + 1) (i + 1)
             { s with
               stopFlag := false
               scanLog := cycleLog c people.length :: s.scanLog
               calls := s.calls ++ [⟨none, s.scanProgress, s.result⟩]
               scanProgress := ((c + 1) % 10) * 10 }) := by
  have hflag : (s.stopFlag || (env i).userCancel) = false := by simp [hs, hc]
  refine ⟨?_, ?_, ?_, ?_⟩
  · constructor
    · intro hacc
      by_contra hng
      have ha : accepts (scanCrowdForBatch people (env i).outcome) = false := by
        rcases Bool.eq_false_or_eq_true
          (accepts (scanCrowdForBatch people (env i).outcome)) with h | h
        · exact absurd ((accepts_iff _).mp h) hng
        · exact h
      rw [videoLoop_step_next people dur env n i s hflag hf ha] at hacc
      have := videoLoop_accepted_ge people dur env n (i + 1) _ i hacc
      omega
    · intro hpq
      have ha : accepts (scanCrowdForBatch people (env i).outcome) = true :=
        (accepts_iff _).mpr hpq
      rw [videoLoop_step_accept people dur env n i s hflag hf ha]
  · constructor
    · intro hacc
      by_contra hng
      have ha : accepts (scanCrowdForBatch people (env i).outcome) = false := by
        rcases Bool.eq_false_or_eq_true
          (accepts (scanCrowdForBatch people (env i).outcome)) with h | h
        · exact absurd ((accepts_iff _).mp h) hng
        · exact h
      rw [webcamLoop_step_next people env n c i s hflag hf ha] at hacc
      have := webcamLoop_accepted_ge people env n (c + 1) (i + 1) _ i hacc
      omega
    · intro hpq
      have ha : accepts (scanCrowdForBatch people (env i).outcome) = true :=
        (accepts_iff _).mpr hpq
      rw [webcamLoop_step_accept people env n c i s hflag hf ha]
  · intro hfound hconf
    have ha : accepts (scanCrowdForBatch people (env i).outcome) = true :=
      (accepts_iff _).mpr ⟨hfound, hconf⟩
    rw [videoLoop_step_accept people dur env n i s hflag hf ha]
    obtain ⟨mr, hmr⟩ := handleScanResult_result_isSome people
      (scanCrowdForBatch people (env i).outcome) (fmtTime (2 * i)) _
    refine ⟨⟨mr, hmr⟩, rfl, ?_, ?_⟩
    · intro htr
      rw [handleScanResult_status_pos people _ _ _ (by rw [hfound, htr]; rfl)]
    · intro htr
      rw [handleScanResult_status_neg people _ _ _ (by rw [htr]; simp)]
  · intro hfound hconf
    have ha : accepts (scanCrowdForBatch people (env i).outcome) = false := by
      simp [accepts, hconf]
    exact ⟨videoLoop_step_next people dur env n i s hflag hf ha,
      webcamLoop_step_next people env n c i s hflag hf ha⟩

/-- C1 witness: instantiation at the roster `[pA]`, the confident verdict
`vHit` for `"A"` at every sample, duration 10, sample index 0. -/
theorem claim1_witness :
    (((videoLoop [pA] 10 envHit (2 + 1) 0 s0).2 = RunEnd.accepted 0)
       ↔ ((scanCrowdForBatch [pA] (envHit 0).outcome).found = true
            ∧ 75 < (scanCrowdForBatch [pA] (envHit 0).outcome).confidence)) ∧
    (((webcamLoop [pA] envHit (2 + 1) 0 0 s0).2 = RunEnd.accepted 0)
       ↔ ((scanCrowdForBatch [pA] (envHit 0).outcome).found = true
            ∧ 75 < (scanCrowdForBatch [pA] (envHit 0).outcome).confidence)) ∧
    ((scanCrowdForBatch [pA] (envHit 0).outcome).found = true →
     75 < (scanCrowdForBatch [pA] (envHit 0).outcome).confidence →
       (∃ mr, (videoLoop [pA] 10 envHit (2 + 1) 0 s0).1.result = some mr) ∧
       (videoLoop [pA] 10 envHit (2 + 1) 0 s0).1.scanning = false ∧
       (personIdTruthy (scanCrowdForBatch [pA] (envHit 0).outcome).personId
            = true →
          (videoLoop [pA] 10 envHit (2 + 1) 0 s0).1.statusUpdates
            = s0.statusUpdates
                ++ [(scanCrowdForBatch [pA] (envHit 0).outcome).personId.getD ""]) ∧
       (personIdTruthy (scanCrowdForBatch [pA] (envHit 0).outcome).personId
            = false →
          (videoLoop [pA] 10 envHit (2 + 1) 0 s0).1.statusUpdates
            = s0.statusUpdates)) ∧
    ((scanCrowdForBatch [pA] (envHit 0).outcome).found = true →
     (scanCrowdForBatch [pA] (envHit 0).outcome).confidence = 75 →
       videoLoop [pA] 10 envHit (2 + 1) 0 s0
         = videoLoop [pA] 10 envHit 2 (0 + 1)
             { s0 with
               stopFlag := false
               positions := s0.positions ++ [2 * 0]
               scanLog := frameLog (2 * 0) [pA].length :: s0.scanLog
               calls := s0.calls ++ [⟨some (2 * 0), s0.scanProgress, s0.result⟩]
               scanProgress := min ((200 * (2 * 0) + 10) / (2 * 10)) 99 } ∧
       webcamLoop [pA] envHit (2 + 1) 0 0 s0
         = webcamLoop [pA] envHit 2 (0 + 1) (0 + 1)
             { s0 with
               stopFlag := false
               scanLog := cycleLog 0 [pA].length :: s0.scanLog
               calls := s0.calls ++ [⟨none, s0.scanProgress, s0.result⟩]
               scanProgress := ((0 + 1) % 10) * 10 }) :=
  claim1_theorem [pA] 10 envHit 2 0 0 s0 rfl rfl rfl

/-- C2: a FILE_VIDEO run of known positive duration `d`, not cancelled
during the run, samples positions starting at 0, advancing by exactly the
fixed 2-second interval (hence monotonically non-decreasing), all strictly
below `d`; the run ends with `scanning` cleared either at the first
accepted verdict — after which no further position is sampled and no
further call dispatched — or, when no verdict is ever accepted on the
timeline, by exhaustion. -/
theorem claim2_theorem (people : List Person) (d : Nat) (env : Nat → StepEnv)
    (s : ScanState) (hd : 0 < d)
    (hcancel : ∀ j, (env j).userCancel = false)
    (hs : s.stopFlag = false) (hpos : s.positions = [])
    (hcalls : s.calls = []) :
    (runVideoScan people d env s).1.positions.head? = some 0 ∧
    (∀ k, k + 1 < (runVideoScan people d env s).1.positions.length →
       (runVideoScan people d env s).1.positions.get? (k + 1)
         = ((runVideoScan people d env s).1.positions.get? k).map
             (fun p => p + 2)) ∧
    (∀ p, p ∈ (runVideoScan people d env s).1.positions → p < d) ∧
    (runVideoScan people d env s).1.scanning = false ∧
    ((∃ k, (runVideoScan people d env s).2 = RunEnd.accepted k ∧
        stepAccepts people (env k) = true ∧
        (∀ j, j < k → stepAccepts people (env j) = false) ∧
        (runVideoScan people d env s).1.positions.length = k + 1 ∧
        (runVideoScan people d env s).1.calls.length ≤ k + 1)
      ∨ ((runVideoScan people d env s).2 = RunEnd.exhausted ∧
         (∀ j, 2 * j < d → stepAccepts people (env j) = false))) := by
  have hd0 : (d == 0) = false := by
    simp
    omega
  have hrun : runVideoScan people d env s
      = videoLoop people d env ((d + 1) / 2) 0 s := by
    unfold runVideoScan
    rw [hd0]
    rfl
  obtain ⟨m, hm, hposE, hscan, hcallsLen, hrest⟩ :=
    videoLoop_clean people d env hcancel ((d + 1) / 2) 0 s hs
  have hP : (runVideoScan people d env s).1.positions
      = (List.range m).map (fun k => 2 * k) := by
    rw [hrun, hposE, hpos]
    simp only [List.nil_append]
    apply List.map_congr_left
    intro a _
    omega
  have hm1 : 1 ≤ m := by
    rcases hrest with ⟨_, hmn, _⟩ | ⟨k, hk, _⟩
    · omega
    · omega
  refine ⟨?_, ?_, ?_, ?_, ?_⟩
  · rw [hP]
    obtain ⟨m2, rfl⟩ : ∃ m2, m = m2 + 1 := ⟨m - 1, by omega⟩
    rw [List.range_succ_eq_map]
    simp
  · intro k hk
    rw [hP] at hk ⊢
    simp only [List.length_map, List.length_range] at hk
    rw [List.get?_map, List.get?_map, List.get?_range (by omega),
      List.get?_range (by omega)]
    simp only [Option.map_some']
    congr 1
  · intro p hp
    rw [hP] at hp
    simp only [List.mem_map, List.mem_range] at hp
    obtain ⟨k, hk, rfl⟩ := hp
    omega
  · rw [hrun]
    exact hscan
  · rcases hrest with ⟨he, hmn, hnone, _, _, _⟩ |
      ⟨k, hkm, hacc, hsa, hbefore, _⟩
    · right
      refine ⟨by rw [hrun]; exact he, ?_⟩
      intro j hj
      have := hnone j (by omega)
      simpa using this
    · left
      refine ⟨k, by rw [hrun]; simpa using hacc, by simpa using hsa, ?_, ?_, ?_⟩
      · intro j hj
        have := hbefore j hj
        simpa using this
      · rw [hP, hkm]
        simp
      · rw [hrun]
        rw [hcalls] at hcallsLen
        simp only [List.length_nil, Nat.zero_add] at hcallsLen
        omega

/-- C2 witness: roster `[pA]`, duration 5, every verdict `vMiss`, starting
from the fresh state. -/
theorem claim2_witness :
    (runVideoScan [pA] 5 envMiss s0).1.positions.head? = some 0 ∧
    (∀ k, k + 1 < (runVideoScan [pA] 5 envMiss s0).1.positions.length →
       (runVideoScan [pA] 5 envMiss s0).1.positions.get? (k + 1)
         = ((runVideoScan [pA] 5 envMiss s0).1.positions.get? k).map
             (fun p => p + 2)) ∧
    (∀ p, p ∈ (runVideoScan [pA] 5 envMiss s0).1.positions → p < 5) ∧
    (runVideoScan [pA] 5 envMiss s0).1.scanning = false ∧
    ((∃ k, (runVideoScan [pA] 5 envMiss s0).2 = RunEnd.accepted k ∧
        stepAccepts [pA] (envMiss k) = true ∧
        (∀ j, j < k → stepAccepts [pA] (envMiss j) = false) ∧
        (runVideoScan [pA] 5 envMiss s0).1.positions.length = k + 1 ∧
        (runVideoScan [pA] 5 envMiss s0).1.calls.length ≤ k + 1)
      ∨ ((runVideoScan [pA] 5 envMiss s0).2 = RunEnd.exhausted ∧
         (∀ j, 2 * j < 5 → stepAccepts [pA] (envMiss j) = false))) :=
  claim2_theorem [pA] 5 envMiss s0 (by decide) (fun _ => rfl) rfl rfl rfl

/-- Environment: the user sets the cancellation flag during the awaits
before sample 1; every capture succeeds and every verdict is `vMiss`. -/
def envCancelAt1 : Nat → StepEnv := fun i => ⟨i == 1, true, .ok vMiss⟩

/-- C3: for a FILE_VIDEO or LIVE_STREAM run started on a non-empty roster,
if the user sets the cancellation flag between two sample iterations (after
`m` completed samples none of which was accepted or cancelled, with
iteration `m` still to come), the run ends CANCELLED with `scanning`
cleared, no stored result (`result` stays the `null` set at run start), and
no Match Client call beyond the `m` pre-cancellation samples. -/
theorem claim3_theorem :
    (∀ (people : List Person) (dur fuel : Nat) (env : Nat → StepEnv)
       (s : ScanState) (m : Nat),
       people.filter (fun p => p.status == Status.MISSING) ≠ [] →
       2 * m < dur →
       (∀ k, k < m → (env k).userCancel = false ∧
          stepAccepts (people.filter (fun p => p.status == Status.MISSING))
            (env k) = false) →
       (env m).userCancel = true →
       (triggerScan people MediaType.video true dur fuel env s).2
           = RunEnd.cancelled ∧
       (triggerScan people MediaType.video true dur fuel env s).1.scanning
           = false ∧
       (triggerScan people MediaType.video true dur fuel env s).1.result
           = none ∧
       (triggerScan people MediaType.video true dur fuel env s).1.calls.length
           ≤ s.calls.length + m) ∧
    (∀ (people : List Person) (dur fuel : Nat) (env : Nat → StepEnv)
       (s : ScanState) (m : Nat),
       people.filter (fun p => p.status == Status.MISSING) ≠ [] →
       m < fuel →
       (∀ k, k < m → (env k).userCancel = false ∧
          stepAccepts (people.filter (fun p => p.status == Status.MISSING))
            (env k) = false) →
       (env m).userCancel = true →
       (triggerScan people MediaType.stream true dur fuel env s).2
           = RunEnd.cancelled ∧
       (triggerScan people MediaType.stream true dur fuel env s).1.scanning
           = false ∧
       (triggerScan people MediaType.stream true dur fuel env s).1.result
           = none ∧
       (triggerScan people MediaType.stream true dur fuel env s).1.calls.length
           ≤ s.calls.length + m) := by
  constructor
  · intro people dur fuel env s m hro hmd hb hm
    have h0 : ((people.filter (fun p => p.status == Status.MISSING)).length == 0)
        = false := by
      simp [List.length_eq_zero, hro]
    have hd0 : (dur == 0) = false := by
      simp
      omega
    have htrig : triggerScan people MediaType.video true dur fuel env s
        = videoLoop (people.filter (fun p => p.status == Status.MISSING))
            dur env ((dur + 1) / 2) 0
            { s with
              scanning := true
              stopFlag := false
              result := none
              scanLog := autoStartLog MediaType.video
                  (people.filter (fun p => p.status == Status.MISSING)).length
                :: s.scanLog } := by
      simp only [triggerScan, runVideoScan]
      rw [h0, hd0]
      rfl
    obtain ⟨h1, h2, h3, h4, _⟩ :=
      videoLoop_cancel (people.filter (fun p => p.status == Status.MISSING))
        dur env m ((dur + 1) / 2) 0
        { s with
              scanning := true
              stopFlag := false
              result := none
              scanLog := autoStartLog MediaType.video
                  (people.filter (fun p => p.status == Status.MISSING)).length
                :: s.scanLog }
        rfl
        (by intro k hk; simpa using hb k hk)
        (by simpa using hm)
        (by omega)
    exact ⟨by rw [htrig]; exact h1, by rw [htrig]; exact h2,
      by rw [htrig]; exact h3, by rw [htrig]; exact h4⟩
  · intro people dur fuel env s m hro hmf hb hm
    have h0 : ((people.filter (fun p => p.status == Status.MISSING)).length == 0)
        = false := by
      simp [List.length_eq_zero, hro]
    have htrig : triggerScan people MediaType.stream true dur fuel env s
        = webcamLoop (people.filter (fun p => p.status == Status.MISSING))
            env fuel 0 0
            { s with
              scanning := true
              stopFlag := false
              result := none
              scanLog := autoStartLog MediaType.stream
                  (people.filter (fun p => p.status == Status.MISSING)).length
                :: s.scanLog } := by
      simp only [triggerScan]
      rw [h0]
      rfl
    obtain ⟨h1, h2, h3, h4⟩ :=
      webcamLoop_cancel (people.filter (fun p => p.status == Status.MISSING))
        env m fuel 0 0
        { s with
              scanning := true
              stopFlag := false
              result := none
              scanLog := autoStartLog MediaType.stream
                  (people.filter (fun p => p.status == Status.MISSING)).length
                :: s.scanLog }
        rfl
        (by intro k hk; simpa using hb k hk)
        (by simpa using hm)
        hmf
    exact ⟨by rw [htrig]; exact h1, by rw [htrig]; exact h2,
      by rw [htrig]; exact h3, by rw [htrig]; exact h4⟩

/-- C3 witness: roster `[pA]`, FILE_VIDEO of duration 10, the user cancels
during the awaits before sample 1; the run is CANCELLED with at most one
dispatched call and no stored result. -/
theorem claim3_witness :
    (triggerScan [pA] MediaType.video true 10 0 envCancelAt1 s0).2
        = RunEnd.cancelled ∧
    (triggerScan [pA] MediaType.video true 10 0 envCancelAt1 s0).1.scanning
        = false ∧
    (triggerScan [pA] MediaType.video true 10 0 envCancelAt1 s0).1.result
        = none ∧
    (triggerScan [pA] MediaType.video true 10 0 envCancelAt1 s0).1.calls.length
        ≤ s0.calls.length + 1 :=
  claim3_theorem.1 [pA] 10 0 envCancelAt1 s0 1 (by decide) (by decide)
    (by
      intro k hk
      have hk0 : k = 0 := by omega
      subst hk0
      exact ⟨rfl, by decide⟩)
    rfl

/-- C7 (counterexample to the claim as stated): roster `[pA]`, FILE_VIDEO of
duration 2, verdict `vMiss` at the only sample, no cancellation. The run
exhausts the timeline and transitions to COMPLETED with progress 100, but
the stored result is `none` — the run-start `setResult(null)` value — not a
stored "not found" result object. -/
theorem claim7_counterexample :
    (triggerScan [pA] MediaType.video true 2 0 envMiss s0).2
        = RunEnd.exhausted ∧
    (triggerScan [pA] MediaType.video true 2 0 envMiss s0).1.scanProgress
        = 100 ∧
    (triggerScan [pA] MediaType.video true 2 0 envMiss s0).1.scanning
        = false ∧
    (triggerScan [pA] MediaType.video true 2 0 envMiss s0).1.result = none := by
  decide

/-- C7 (amended): a FILE_VIDEO run on a non-empty roster of positive
duration, never cancelled and with no accepted verdict on the timeline,
ends by exhaustion with progress 100, `scanning` cleared, a completion log
entry — and the stored result left as `none` (the value cleared at run
start); no "not found" result object is stored. -/
theorem claim7_theorem (people : List Person) (dur fuel : Nat)
    (env : Nat → StepEnv) (s : ScanState)
    (hro : people.filter (fun p => p.status == Status.MISSING) ≠ [])
    (hd : 0 < dur)
    (hcancel : ∀ j, (env j).userCancel = false)
    (hnoacc : ∀ j, 2 * j < dur →
       stepAccepts (people.filter (fun p => p.status == Status.MISSING))
         (env j) = false) :
    (triggerScan people MediaType.video true dur fuel env s).2
        = RunEnd.exhausted ∧
    (triggerScan people MediaType.video true dur fuel env s).1.scanProgress
        = 100 ∧
    (triggerScan people MediaType.video true dur fuel env s).1.scanning
        = false ∧
    (triggerScan people MediaType.video true dur fuel env s).1.result
        = none ∧
    (triggerScan people MediaType.video true dur fuel env s).1.scanLog.head?
        = some "Scan complete. No matches found in footage." := by
  have h0 : ((people.filter (fun p => p.status == Status.MISSING)).length == 0)
      = false := by
    simp [List.length_eq_zero, hro]
  have hd0 : (dur == 0) = false := by
    simp
    omega
  have htrig : triggerScan people MediaType.video true dur fuel env s
      = videoLoop (people.filter (fun p => p.status == Status.MISSING))
          dur env ((dur + 1) / 2) 0
          { s with
            scanning := true
            stopFlag := false
            result := none
            scanLog := autoStartLog MediaType.video
                (people.filter (fun p => p.status == Status.MISSING)).length
              :: s.scanLog } := by
    simp only [triggerScan, runVideoScan]
    rw [h0, hd0]
    rfl
  obtain ⟨m, hm, _, hscan, _, hrest⟩ :=
    videoLoop_clean (people.filter (fun p => p.status == Status.MISSING))
      dur env hcancel ((dur + 1) / 2) 0
      { s with
              scanning := true
              stopFlag := false
              result := none
              scanLog := autoStartLog MediaType.video
                  (people.filter (fun p => p.status == Status.MISSING)).length
                :: s.scanLog }
      rfl
  rcases hrest with ⟨he, hmn, _, hprog, hres, ⟨tl, hlog⟩⟩ |
    ⟨k, hkm, hacc, hsa, _, _⟩
  · refine ⟨by rw [htrig]; exact he, by rw [htrig]; exact hprog,
      by rw [htrig]; exact hscan, by rw [htrig]; exact hres, ?_⟩
    rw [htrig, hlog]
    rfl
  · exfalso
    have h2k : 2 * k < dur := by omega
    have := hnoacc k h2k
    rw [Nat.zero_add] at hsa
    rw [this] at hsa
    cases hsa

/-- C7 witness (for the amended claim): roster `[pA]`, duration 6, every
verdict `vMiss`, no cancellation. -/
theorem claim7_witness :
    (triggerScan [pA] MediaType.video true 6 0 envMiss s0).2
        = RunEnd.exhausted ∧
    (triggerScan [pA] MediaType.video true 6 0 envMiss s0).1.scanProgress
        = 100 ∧
    (triggerScan [pA] MediaType.video true 6 0 envMiss s0).1.scanning
        = false ∧
    (triggerScan [pA] MediaType.video true 6 0 envMiss s0).1.result
        = none ∧
    (triggerScan [pA] MediaType.video true 6 0 envMiss s0).1.scanLog.head?
        = some "Scan complete. No matches found in footage." :=
  claim7_theorem [pA] 6 0 envMiss s0 (by decide) (by decide) (fun _ => rfl)
    (fun _ _ => rfl)

/-- C8 (counterexample to the claim as stated): a STATIC_IMAGE run completes
with progress 100; restarting as a FILE_VIDEO run dispatches its first new
sample while `scanProgress` is still 100 — the progress value is not reset
to 0 before the first new sample — although the prior stored result was
cleared (`resultAt = none` at that dispatch). -/
theorem claim8_counterexample :
    (triggerScan [pA] MediaType.image true 0 0 envMiss s0).2
        = RunEnd.imageDone ∧
    (triggerScan [pA] MediaType.image true 0 0 envMiss s0).1.scanning
        = false ∧
    (triggerScan [pA] MediaType.image true 0 0 envMiss s0).1.scanProgress
        = 100 ∧
    ((restartScan [pA] MediaType.video true 4 0 envMiss
        (triggerScan [pA] MediaType.image true 0 0 envMiss s0).1).1.calls.get? 1)
      = some ⟨some 0, 100, none⟩ := by
  decide

/-- C8 (amended): restarting a run as FILE_VIDEO on a non-empty roster
clears the cancellation flag and the prior stored result before the first
new sample — the first Match Client dispatch of the restarted run observes
`resultAt = none` — but does not reset progress: that dispatch observes
`progressAt` equal to the pre-restart `scanProgress`, which is only updated
after the first sample. -/
theorem claim8_theorem (people : List Person) (dur fuel : Nat)
    (env : Nat → StepEnv) (s : ScanState)
    (hro : people.filter (fun p => p.status == Status.MISSING) ≠ [])
    (hd : 0 < dur)
    (hc0 : (env 0).userCancel = false)
    (hf0 : (env 0).frameOk = true) :
    ∃ rest, (restartScan people MediaType.video true dur fuel env s).1.calls
      = s.calls ++ (⟨some 0, s.scanProgress, none⟩ :: rest) := by
  have h0 : ((people.filter (fun p => p.status == Status.MISSING)).length == 0)
      = false := by
    simp [List.length_eq_zero, hro]
  have hd0 : (dur == 0) = false := by
    simp
    omega
  have htrig : restartScan people MediaType.video true dur fuel env s
      = videoLoop (people.filter (fun p => p.status == Status.MISSING))
          dur env ((dur + 1) / 2) 0
          { s with
            scanning := true
            stopFlag := false
            result := none
            scanLog := autoStartLog MediaType.video
                (people.filter (fun p => p.status == Status.MISSING)).length
              :: s.scanLog } := by
    simp only [restartScan, triggerScan, runVideoScan]
    rw [h0, hd0]
    rfl
  obtain ⟨n2, hn2⟩ : ∃ n2, (dur + 1) / 2 = n2 + 1 := ⟨(dur + 1) / 2 - 1, by omega⟩
  rw [htrig, hn2]
  have hflag :
      (({ s with
            scanning := true
            stopFlag := false
            result := none
            scanLog := autoStartLog MediaType.video
                (people.filter (fun p => p.status == Status.MISSING)).length
              :: s.scanLog } : ScanState).stopFlag
          || (env 0).userCancel) = false := by
    simp [hc0]
  by_cases ha : accepts (scanCrowdForBatch
      (people.filter (fun p => p.status == Status.MISSING)) (env 0).outcome)
      = true
  · rw [videoLoop_step_accept _ dur env n2 0 _ hflag hf0 ha]
    refine ⟨[], ?_⟩
    rw [handleScanResult_calls]
  · rw [Bool.not_eq_true] at ha
    rw [videoLoop_step_next _ dur env n2 0 _ hflag hf0 ha]
    obtain ⟨l, hl⟩ := videoLoop_calls_mono
      (people.filter (fun p => p.status == Status.MISSING)) dur env n2 1 _
    refine ⟨l, ?_⟩
    rw [hl]
    show (s.calls ++ [(⟨some 0, s.scanProgress, none⟩ : CallRec)]) ++ l
      = s.calls ++ ((⟨some 0, s.scanProgress, none⟩ : CallRec) :: l)
    simp

/-- C8 witness (for the amended claim): restart after a completed
STATIC_IMAGE run (progress 100): the restarted video run's first dispatch
carries the old progress and a cleared result. -/
theorem claim8_witness :
    ∃ rest, (restartScan [pA] MediaType.video true 4 0 envMiss
        (triggerScan [pA] MediaType.image true 0 0 envMiss s0).1).1.calls
      = (triggerScan [pA] MediaType.image true 0 0 envMiss s0).1.calls
          ++ (⟨some 0,
                (triggerScan [pA] MediaType.image true 0 0 envMiss s0).1.scanProgress,
                none⟩ :: rest) :=
  claim8_theorem [pA] 4 0 envMiss
    (triggerScan [pA] MediaType.image true 0 0 envMiss s0).1
    (by decide) (by decide) rfl rfl

/-- C9: a LIVE_STREAM run on a non-empty roster (fresh progress 0) in which
no verdict is ever accepted never terminates on its own: while the
cancellation flag stays clear, after any `n` completed cycles the loop is
still running with `scanning = true` and the progress indicator equal to
`(n % 10) * 10` — cycling instead of reaching a fixed 100 — and the only
way the loop ends is that the user set the cancellation flag during the
observed window. -/
theorem claim9_theorem (people : List Person) (env : Nat → StepEnv)
    (s : ScanState)
    (hro : people.filter (fun p => p.status == Status.MISSING) ≠ [])
    (hp0 : s.scanProgress = 0)
    (hnoacc : ∀ j, stepAccepts
        (people.filter (fun p => p.status == Status.MISSING)) (env j)
        = false) :
    ((∀ j, (env j).userCancel = false) →
       ∀ n, (triggerScan people MediaType.stream true 0 n env s).2
              = RunEnd.running ∧
            (triggerScan people MediaType.stream true 0 n env s).1.scanning
              = true ∧
            (triggerScan people MediaType.stream true 0 n env s).1.scanProgress
              = (n % 10) * 10) ∧
    (∀ n, (triggerScan people MediaType.stream true 0 n env s).2
            = RunEnd.cancelled →
       ∃ j, j < n ∧ (env j).userCancel = true) := by
  have h0 : ((people.filter (fun p => p.status == Status.MISSING)).length == 0)
      = false := by
    simp [List.length_eq_zero, hro]
  have htrig : ∀ n, triggerScan people MediaType.stream true 0 n env s
      = webcamLoop (people.filter (fun p => p.status == Status.MISSING))
          env n 0 0
          { s with
            scanning := true
            stopFlag := false
            result := none
            scanLog := autoStartLog MediaType.stream
                (people.filter (fun p => p.status == Status.MISSING)).length
              :: s.scanLog } := by
    intro n
    simp only [triggerScan]
    rw [h0]
    rfl
  constructor
  · intro hcancel n
    obtain ⟨h1, h2, _, _, h5⟩ :=
      webcamLoop_clean (people.filter (fun p => p.status == Status.MISSING))
        env hcancel hnoacc n 0 0
        { s with
              scanning := true
              stopFlag := false
              result := none
              scanLog := autoStartLog MediaType.stream
                  (people.filter (fun p => p.status == Status.MISSING)).length
                :: s.scanLog }
        rfl
    refine ⟨by rw [htrig n]; exact h1, by rw [htrig n]; exact h2, ?_⟩
    rw [htrig n, h5]
    by_cases hn : n = 0
    · subst hn
      simpa using hp0
    · simp [hn]
  · intro n h
    rw [htrig n] at h
    obtain ⟨j, _, hj2, hj3⟩ := webcamLoop_cancelled_of
      (people.filter (fun p => p.status == Status.MISSING)) env n 0 0 _ rfl h
    exact ⟨j, by omega, hj3⟩

/-- C9 witness: roster `[pA]`, every verdict `vMiss`, fresh state. -/
theorem claim9_witness :
    ((∀ j, (envMiss j).userCancel = false) →
       ∀ n, (triggerScan [pA] MediaType.stream true 0 n envMiss s0).2
              = RunEnd.running ∧
            (triggerScan [pA] MediaType.stream true 0 n envMiss s0).1.scanning
              = true ∧
            (triggerScan [pA] MediaType.stream true 0 n envMiss s0).1.scanProgress
              = (n % 10) * 10) ∧
    (∀ n, (triggerScan [pA] MediaType.stream true 0 n envMiss s0).2
            = RunEnd.cancelled →
       ∃ j, j < n ∧ (envMiss j).userCancel = true) :=
  claim9_theorem [pA] envMiss s0 (by decide) rfl (fun _ => rfl)

end MissingPersonScan
